import Mathlib

/-!
Verification of the frame-generation pipeline of `auto_match_move_to_video.py`.

Modelling conventions:
* Python float arithmetic is modelled as exact rational arithmetic over `ℚ`.
* The Python builtin `round` (round half to even) is modelled by `pyRound`.
* Python floor division `//` is modelled by `Int.fdiv`.
* `cv2` / `numpy` primitives (`imread`, `resize` with `INTER_AREA`,
  `addWeighted`, array slice assignment, `rectangle`, `VideoWriter`) are
  modelled by their documented semantics; the computations that the script
  itself performs are translated line by line from the source.
-/

namespace AMM

/-- The Python builtin `round` on rationals: round to the nearest integer,
ties going to the even integer. -/
def pyRound (x : ℚ) : ℤ :=
  if Int.fract x < 1 / 2 then ⌊x⌋
  else if 1 / 2 < Int.fract x then ⌊x⌋ + 1
  else if ⌊x⌋ % 2 = 0 then ⌊x⌋ else ⌊x⌋ + 1

/-- A BGR pixel: three channel values (OpenCV images are 8-bit, 3-channel). -/
def Px : Type := ℕ × ℕ × ℕ

/-- A decoded raster image: height, width, and the pixel at each
(row, column) position, as produced by `cv2.imread` and `cv2.resize`. -/
structure Img where
  h : ℕ
  w : ℕ
  pix : ℕ → ℕ → Px

/-- Saturation of an integer channel value to the 8-bit range `[0, 255]`
(the `cv2.saturate_cast` applied by OpenCV when storing results). -/
def sat255 (n : ℤ) : ℕ := (max 0 (min 255 n)).toNat

/-- Pure black, the frame background from line 137:
`frame = np.zeros((h_out, w_out, 3), dtype=np.uint8)`. -/
def black : Px := (0, 0, 0)

/-- Pure white, the border colour `(255, 255, 255)` from line 154. -/
def white : Px := (255, 255, 255)

/-- Length of the overlap of the unit source-pixel interval `[u, u+1)`
with the interval `[lo, hi)`. -/
def overlap (u : ℕ) (lo hi : ℚ) : ℚ :=
  max 0 (min ((u : ℚ) + 1) hi - max (u : ℚ) lo)

/-- One channel of the area-averaging resample: the weighted average of the
source pixels overlapping the source box that maps onto destination pixel
`(x, y)`, rounded and saturated. -/
def areaChan (f : ℕ → ℕ → ℚ) (srcW srcH w2 h2 x y : ℕ) : ℕ :=
  let lx : ℚ := (x : ℚ) * (srcW : ℚ) / (w2 : ℚ)
  let hx : ℚ := ((x : ℚ) + 1) * (srcW : ℚ) / (w2 : ℚ)
  let ly : ℚ := (y : ℚ) * (srcH : ℚ) / (h2 : ℚ)
  let hy : ℚ := ((y : ℚ) + 1) * (srcH : ℚ) / (h2 : ℚ)
  sat255 (pyRound ((Finset.sum (Finset.range srcW) fun u =>
    Finset.sum (Finset.range srcH) fun v =>
      overlap u lx hx * overlap v ly hy * f v u) / ((hx - lx) * (hy - ly))))

/-- Model of `cv2.resize(img, (w2, h2), interpolation=cv2.INTER_AREA)`:
each destination pixel is the area-weighted average, in exact rational
arithmetic, of the source pixels overlapping the corresponding source box. -/
def resizeArea (img : Img) (w2 h2 : ℕ) : Img :=
  ⟨h2, w2, fun y x =>
    (areaChan (fun v u => ((img.pix v u).1 : ℚ)) img.w img.h w2 h2 x y,
     areaChan (fun v u => ((img.pix v u).2.1 : ℚ)) img.w img.h w2 h2 x y,
     areaChan (fun v u => ((img.pix v u).2.2 : ℚ)) img.w img.h w2 h2 x y)⟩

/-- Model of `cv2.addWeighted(a, wa, b, wb, 0.0)` (line 148): per pixel and
per channel, `saturate(round(wa * a + wb * b))`. -/
def addWeighted (a : Img) (wa : ℚ) (b : Img) (wb : ℚ) : Img :=
  ⟨a.h, a.w, fun y x =>
    (sat255 (pyRound (wa * ((a.pix y x).1 : ℚ) + wb * ((b.pix y x).1 : ℚ))),
     sat255 (pyRound (wa * ((a.pix y x).2.1 : ℚ) + wb * ((b.pix y x).2.1 : ℚ))),
     sat255 (pyRound (wa * ((a.pix y x).2.2 : ℚ) + wb * ((b.pix y x).2.2 : ℚ))))⟩

/-- Lines 72–74: `scale_b = h_out / float(h_b);
new_w_b = int(round(w_b * scale_b));
img_b_scaled = cv2.resize(img_b, (new_w_b, h_out), cv2.INTER_AREA)`. -/
def scaleB (b : Img) (h_out : ℕ) : Img :=
  resizeArea b (pyRound ((b.w : ℚ) * (h_out : ℚ) / (b.h : ℚ))).toNat h_out

/-- Lines 81 and 83: `w_43 = int(round(h_out * 4.0 / 3.0))` followed by
`w_43 = min(w_43, w_out)`. -/
def w_43 (h_out w_out : ℤ) : ℤ := min (pyRound ((h_out : ℚ) * 4 / 3)) w_out

/-- Line 92: `total_frames = max(2, int(round(fps * seconds)))`. -/
def total_frames (fps : ℤ) (seconds : ℚ) : ℤ := max 2 (pyRound ((fps : ℚ) * seconds))

/-- Lines 111–115: the ordered sequence of time samples produced by the frame
loop: for `frame_idx` in `range(n)`, `t = 1.0` if `n == 1`, else
`t = frame_idx / (n - 1)`. -/
def samples (n : ℤ) : List ℚ :=
  (List.range n.toNat).map fun (i : ℕ) =>
    if n = 1 then (1 : ℚ) else (i : ℚ) / ((n : ℚ) - 1)

/-- Line 122: `rect_w = int(round((1.0 - t_eased) * w_out + t_eased * w_43))`
(the script sets `t_eased = t`). -/
def rect_w (w_out w43 : ℤ) (t : ℚ) : ℤ :=
  pyRound ((1 - t) * (w_out : ℚ) + t * (w43 : ℚ))

/-- Lines 126–127: `cx = w_out // 2; x0 = cx - rect_w // 2`. -/
def x0 (w_out rw : ℤ) : ℤ := Int.fdiv w_out 2 - Int.fdiv rw 2

/-- Line 128: `x1 = x0 + rect_w`. -/
def x1 (w_out rw : ℤ) : ℤ := x0 w_out rw + rw

/-- Line 133: `x0 = max(0, x0)`. -/
def x0c (w_out rw : ℤ) : ℤ := max 0 (x0 w_out rw)

/-- Line 134: `x1 = min(w_out, x1)`. -/
def x1c (w_out rw : ℤ) : ℤ := min w_out (x1 w_out rw)

/-- Lines 141–148: the blended interior content of the current rectangle,
`cv2.addWeighted(a_scaled, 1 - t, b_scaled, t, 0.0)` where `a_scaled` and
`b_scaled` are the two sources resampled to `(rect_w, rect_h)`. -/
def insideImage (imgA imgBs : Img) (h_out : ℕ) (rw : ℤ) (t : ℚ) : Img :=
  addWeighted (resizeArea imgA rw.toNat h_out) (1 - t)
    (resizeArea imgBs rw.toNat h_out) t

/-- Membership in the 2-pixel-wide white ring that
`cv2.rectangle(frame, (a0, b0), (a1, b1), (255,255,255), thickness=2)`
paints along the rectangle boundary (line 154), before clipping to the
frame: the point lies in the closed rectangle and within distance 1 of one
of its four edges. -/
def onRing (a0 a1 b0 b1 xx yy : ℤ) : Prop :=
  a0 ≤ xx ∧ xx ≤ a1 ∧ b0 ≤ yy ∧ yy ≤ b1 ∧
    (xx ≤ a0 + 1 ∨ a1 - 1 ≤ xx ∨ yy ≤ b0 + 1 ∨ b1 - 1 ≤ yy)

instance (a0 a1 b0 b1 xx yy : ℤ) : Decidable (onRing a0 a1 b0 b1 xx yy) := by
  unfold onRing
  infer_instance

/-- Lines 122–154: generation of a single output frame at time `t`.
The frame starts as all black (line 137), the blended interior is copied
into columns `[x0, x1)` (line 151, with `y0 = 0`, `y1 = h_out` so every row
is covered), and the white 2-pixel border is painted last (line 154), so it
is never occluded. -/
def composeFrame (imgA imgBs : Img) (w_out h_out : ℕ) (w43 : ℤ) (t : ℚ) : Img :=
  let rw := rect_w (w_out : ℤ) w43 t
  let a0 := x0c (w_out : ℤ) rw
  let a1 := x1c (w_out : ℤ) rw
  let inside := insideImage imgA imgBs h_out rw t
  ⟨h_out, w_out, fun y x =>
    if onRing a0 a1 0 (h_out : ℤ) (x : ℤ) (y : ℤ) then white
    else if a0 ≤ (x : ℤ) ∧ (x : ℤ) < a1 ∧ y < h_out then
      inside.pix y ((x : ℤ) - a0).toNat
    else black⟩

/-- Lines 57–159 without the I/O: the full deterministic frame pipeline.
The canvas takes the size of image `A` (line 69), `B` is rescaled to the
canvas height (lines 72–74), the 4:3 target width is computed (lines 81–83),
`A` is resized to the canvas when its height differs (lines 107–109, never
exercised because the canvas height is defined as the height of `A`), and
one frame is composed per time sample, in sample order (lines 111–156). -/
def renderFrames (imgA imgB : Img) (fps : ℤ) (seconds : ℚ) : List Img :=
  let h_out := imgA.h
  let w_out := imgA.w
  let imgBs := scaleB imgB h_out
  let w43 := w_43 (h_out : ℤ) (w_out : ℤ)
  let imgA2 := if imgA.h ≠ h_out then resizeArea imgA w_out h_out else imgA
  (samples (total_frames fps seconds)).map fun t =>
    composeFrame imgA2 imgBs w_out h_out w43 t

/-- Observable events of one run of `main` (lines 57–159): error and info
prints, the writer being successfully opened, each frame write, the final
`writer.release()`, and the success print. -/
inductive Ev where
  | errorPrinted (s : String)
  | writerOpened
  | frameWritten (i : ℕ)
  | writerReleased
  | okPrinted (s : String)
deriving DecidableEq

/-- The environment a run of `main` executes against: the decode results of
the two images (`None` models a failed `cv2.imread`), whether
`writer.isOpened()` holds, and the command-line parameters. -/
structure RunInput where
  imgA : Option Img
  imgB : Option Img
  writerOk : Bool
  fps : ℤ
  seconds : ℚ
  pathA : String
  pathB : String
  outPath : String

/-- Lines 49–54 and 57–159: the ordered event trace and the process exit
status of one run of `main`. `load_image` prints and calls `sys.exit(1)`
when a decode fails; a writer that is not opened prints and calls
`sys.exit(2)`; otherwise the loop writes one frame per sample index,
`writer.release()` runs, the success message prints and the exit status
is 0. -/
def runTrace (e : RunInput) : List Ev × ℤ :=
  match e.imgA with
  | none => ([Ev.errorPrinted ("[ERROR] Failed to read image A (16:9): " ++ e.pathA)], 1)
  | some _ =>
    match e.imgB with
    | none => ([Ev.errorPrinted ("[ERROR] Failed to read image B (4:3): " ++ e.pathB)], 1)
    | some _ =>
      if e.writerOk then
        (Ev.writerOpened ::
          ((List.range (total_frames e.fps e.seconds).toNat).map Ev.frameWritten ++
            [Ev.writerReleased, Ev.okPrinted ("[OK] Saved video: " ++ e.outPath)]), 0)
      else
        ([Ev.errorPrinted "[ERROR] Could not open VideoWriter."], 2)

/-- A constant 2×2 test image, used to instantiate theorems at a concrete
input. -/
def testImg : Img := ⟨2, 2, fun _ _ => (7, 7, 7)⟩

lemma pyRound_intCast (n : ℤ) : pyRound ((n : ℚ)) = n := by
  simp [pyRound, Int.fract_intCast, Int.floor_intCast]

lemma pyRound_le_add_half (x : ℚ) : (pyRound x : ℚ) ≤ x + 1 / 2 := by
  have hf0 : 0 ≤ Int.fract x := Int.fract_nonneg x
  have hf1 : Int.fract x < 1 := Int.fract_lt_one x
  have hfe : Int.fract x = x - ⌊x⌋ := rfl
  unfold pyRound
  split_ifs <;> push_cast <;> linarith

lemma sub_half_le_pyRound (x : ℚ) : x - 1 / 2 ≤ (pyRound x : ℚ) := by
  have hf0 : 0 ≤ Int.fract x := Int.fract_nonneg x
  have hf1 : Int.fract x < 1 := Int.fract_lt_one x
  have hfe : Int.fract x = x - ⌊x⌋ := rfl
  unfold pyRound
  split_ifs <;> push_cast <;> linarith

lemma pyRound_mono {x y : ℚ} (h : x ≤ y) : pyRound x ≤ pyRound y := by
  by_contra hc
  push_neg at hc
  have h3 : (pyRound y : ℚ) + 1 ≤ (pyRound x : ℚ) := by
    exact_mod_cast Int.add_one_le_iff.mpr hc
  have b1 := pyRound_le_add_half x
  have b2 := sub_half_le_pyRound y
  have hxy : x = y := by linarith
  subst hxy
  exact lt_irrefl _ hc

lemma w_43_le (h_out w_out : ℤ) : w_43 h_out w_out ≤ w_out := min_le_right _ _

lemma w_43_nonneg {h_out w_out : ℤ} (hh : 0 ≤ h_out) (hw : 0 ≤ w_out) :
    0 ≤ w_43 h_out w_out := by
  have harg : ((0 : ℤ) : ℚ) ≤ (h_out : ℚ) * 4 / 3 := by
    have h0 : (0 : ℚ) ≤ (h_out : ℚ) := by exact_mod_cast hh
    push_cast
    linarith
  have hp := pyRound_mono harg
  rw [pyRound_intCast] at hp
  exact le_min hp hw

lemma rect_w_le {w v : ℤ} {t : ℚ} (hv : v ≤ w) (ht0 : 0 ≤ t) :
    rect_w w v t ≤ w := by
  have hvw : (v : ℚ) ≤ (w : ℚ) := by exact_mod_cast hv
  have hx : (1 - t) * (w : ℚ) + t * (v : ℚ) ≤ ((w : ℤ) : ℚ) := by
    nlinarith [mul_nonneg ht0 (sub_nonneg.mpr hvw)]
  calc rect_w w v t ≤ pyRound ((w : ℤ) : ℚ) := pyRound_mono hx
    _ = w := pyRound_intCast w

lemma min_le_rect_w {w v : ℤ} {t : ℚ} (ht0 : 0 ≤ t) (ht1 : t ≤ 1) :
    min w v ≤ rect_w w v t := by
  have hm : ((min w v : ℤ) : ℚ) ≤ (1 - t) * (w : ℚ) + t * (v : ℚ) := by
    push_cast
    have h1 : min (w : ℚ) (v : ℚ) ≤ (w : ℚ) := min_le_left _ _
    have h2 : min (w : ℚ) (v : ℚ) ≤ (v : ℚ) := min_le_right _ _
    nlinarith [mul_nonneg (by linarith : (0 : ℚ) ≤ 1 - t)
        (by linarith : (0 : ℚ) ≤ (w : ℚ) - min (w : ℚ) (v : ℚ)),
      mul_nonneg ht0 (by linarith : (0 : ℚ) ≤ (v : ℚ) - min (w : ℚ) (v : ℚ))]
  calc min w v = pyRound ((min w v : ℤ) : ℚ) := (pyRound_intCast _).symm
    _ ≤ rect_w w v t := pyRound_mono hm

lemma rect_w_antitone {w v : ℤ} {t s : ℚ} (hv : v ≤ w) (hts : t ≤ s) :
    rect_w w v s ≤ rect_w w v t := by
  have hvw : (v : ℚ) ≤ (w : ℚ) := by exact_mod_cast hv
  unfold rect_w
  apply pyRound_mono
  nlinarith [mul_nonneg (sub_nonneg.mpr hts) (sub_nonneg.mpr hvw)]

/-- Claim C1: for every frame time sample `t` in `[0,1]`, the computed
rectangle width equals `round((1 - t) * canvas_width + t * target_width)`;
at `t = 0` the rectangle width equals the canvas width exactly, and at
`t = 1` it equals the target width exactly. -/
theorem c1_rect_width_formula (w_out w43 : ℤ) (t : ℚ)
    (ht0 : 0 ≤ t) (ht1 : t ≤ 1) :
    rect_w w_out w43 t = pyRound ((1 - t) * (w_out : ℚ) + t * (w43 : ℚ)) ∧
    rect_w w_out w43 0 = w_out ∧
    rect_w w_out w43 1 = w43 := by
  refine ⟨rfl, ?_, ?_⟩
  · have h : (1 - (0 : ℚ)) * (w_out : ℚ) + 0 * (w43 : ℚ) = ((w_out : ℤ) : ℚ) := by
      ring
    rw [rect_w, h, pyRound_intCast]
  · have h : (1 - (1 : ℚ)) * (w_out : ℚ) + 1 * (w43 : ℚ) = ((w43 : ℤ) : ℚ) := by
      ring
    rw [rect_w, h, pyRound_intCast]

theorem c1_rect_width_formula_witness :
    rect_w 1920 1440 0 = 1920 ∧ rect_w 1920 1440 1 = 1440 :=
  ⟨(c1_rect_width_formula 1920 1440 (1 / 2) (by norm_num) (by norm_num)).2.1,
   (c1_rect_width_formula 1920 1440 (1 / 2) (by norm_num) (by norm_num)).2.2⟩

lemma w_43_1080_1920 : w_43 1080 1920 = 1440 := by
  have h : ((1080 : ℤ) : ℚ) * 4 / 3 = ((1440 : ℤ) : ℚ) := by norm_num
  unfold w_43
  rw [h, pyRound_intCast]
  norm_num

/-- Claim C5: for every `t` in `[0,1]`,
`canvas_width ≥ rect_width(t) ≥ min(canvas_width, target_width)`, and as `t`
increases `rect_width(t)` is non-increasing whenever
`target_width < canvas_width`. -/
theorem c5_rect_width_bounds (h_out w_out : ℤ) (t s : ℚ)
    (ht0 : 0 ≤ t) (ht1 : t ≤ 1) :
    rect_w w_out (w_43 h_out w_out) t ≤ w_out ∧
    min w_out (w_43 h_out w_out) ≤ rect_w w_out (w_43 h_out w_out) t ∧
    (w_43 h_out w_out < w_out → t ≤ s → s ≤ 1 →
      rect_w w_out (w_43 h_out w_out) s ≤ rect_w w_out (w_43 h_out w_out) t) := by
  refine ⟨rect_w_le (w_43_le _ _) ht0, min_le_rect_w ht0 ht1, ?_⟩
  intro _ hts _
  exact rect_w_antitone (w_43_le _ _) hts

theorem c5_rect_width_bounds_witness :
    rect_w 1920 (w_43 1080 1920) 0 ≤ 1920 ∧
    rect_w 1920 (w_43 1080 1920) 1 ≤ rect_w 1920 (w_43 1080 1920) 0 :=
  ⟨(c5_rect_width_bounds 1080 1920 0 1 (by norm_num) (by norm_num)).1,
   (c5_rect_width_bounds 1080 1920 0 1 (by norm_num) (by norm_num)).2.2
     (by rw [w_43_1080_1920]; norm_num) (by norm_num) (by norm_num)⟩

/-- Claim C6: the target aspect width is
`target_width = round(canvas_height * 4/3)` clamped to at most
`canvas_width`, and for positive canvas dimensions (which the canvas of a
run always has, since they are the dimensions of the decoded image `A`)
the invariant `0 < target_width ≤ canvas_width` holds. -/
theorem c6_target_width_invariant (h_out w_out : ℤ)
    (hh : 0 < h_out) (hw : 0 < w_out) :
    w_43 h_out w_out = min (pyRound ((h_out : ℚ) * 4 / 3)) w_out ∧
    0 < w_43 h_out w_out ∧ w_43 h_out w_out ≤ w_out := by
  refine ⟨rfl, ?_, w_43_le _ _⟩
  have h1 : (h_out : ℚ) ≤ (h_out : ℚ) * 4 / 3 := by
    have h0 : (0 : ℚ) ≤ (h_out : ℚ) := by exact_mod_cast hh.le
    linarith
  have h2 : h_out ≤ pyRound ((h_out : ℚ) * 4 / 3) := by
    calc h_out = pyRound ((h_out : ℚ)) := (pyRound_intCast _).symm
      _ ≤ _ := pyRound_mono h1
  exact lt_min (by omega) hw

theorem c6_target_width_invariant_witness :
    0 < w_43 1080 1920 ∧ w_43 1080 1920 ≤ 1920 :=
  ⟨(c6_target_width_invariant 1080 1920 (by norm_num) (by norm_num)).2.1,
   (c6_target_width_invariant 1080 1920 (by norm_num) (by norm_num)).2.2⟩

/-- Claim C10: for every emitted sample `t`, the centered rectangle bounds
`x0 = canvas_width // 2 − rect_w // 2` and `x1 = x0 + rect_w` already
satisfy `0 ≤ x0 ≤ x1 ≤ canvas_width` before the clamping step, so the
clamps never change `x0` or `x1` and the copied region width `x1 − x0`
always equals `rect_w`. -/
theorem c10_centered_rect_in_bounds (h_out w_out : ℤ) (t : ℚ)
    (hh : 0 ≤ h_out) (hw : 0 ≤ w_out) (ht0 : 0 ≤ t) (ht1 : t ≤ 1) :
    x0c w_out (rect_w w_out (w_43 h_out w_out) t) =
      x0 w_out (rect_w w_out (w_43 h_out w_out) t) ∧
    x1c w_out (rect_w w_out (w_43 h_out w_out) t) =
      x1 w_out (rect_w w_out (w_43 h_out w_out) t) ∧
    0 ≤ x0 w_out (rect_w w_out (w_43 h_out w_out) t) ∧
    x0 w_out (rect_w w_out (w_43 h_out w_out) t) ≤
      x1 w_out (rect_w w_out (w_43 h_out w_out) t) ∧
    x1 w_out (rect_w w_out (w_43 h_out w_out) t) ≤ w_out ∧
    x1 w_out (rect_w w_out (w_43 h_out w_out) t) -
      x0 w_out (rect_w w_out (w_43 h_out w_out) t) =
      rect_w w_out (w_43 h_out w_out) t := by
  have hle : rect_w w_out (w_43 h_out w_out) t ≤ w_out :=
    rect_w_le (w_43_le _ _) ht0
  have h0 : 0 ≤ rect_w w_out (w_43 h_out w_out) t := by
    have hm : min w_out (w_43 h_out w_out) ≤ rect_w w_out (w_43 h_out w_out) t :=
      min_le_rect_w ht0 ht1
    have hv0 : 0 ≤ w_43 h_out w_out := w_43_nonneg hh hw
    omega
  unfold x0c x1c x1 x0
  rw [Int.fdiv_eq_ediv _ (by norm_num), Int.fdiv_eq_ediv _ (by norm_num)]
  omega

theorem c10_centered_rect_in_bounds_witness :
    x0c 1920 (rect_w 1920 (w_43 1080 1920) (1 / 2)) =
      x0 1920 (rect_w 1920 (w_43 1080 1920) (1 / 2)) ∧
    x1 1920 (rect_w 1920 (w_43 1080 1920) (1 / 2)) -
      x0 1920 (rect_w 1920 (w_43 1080 1920) (1 / 2)) =
      rect_w 1920 (w_43 1080 1920) (1 / 2) :=
  ⟨(c10_centered_rect_in_bounds 1080 1920 (1 / 2) (by norm_num) (by norm_num)
      (by norm_num) (by norm_num)).1,
   (c10_centered_rect_in_bounds 1080 1920 (1 / 2) (by norm_num) (by norm_num)
      (by norm_num) (by norm_num)).2.2.2.2.2⟩

/-- Claim C2: the total frame count is `max(2, round(fps * seconds))`; for
`n > 1` the sequencer produces exactly the samples `i / (n - 1)` for
`i = 0 .. n-1`, one per index and in strictly increasing order; for `n = 1`
it emits the single sample `1.0`. -/
theorem c2_frame_sequencer (fps : ℤ) (seconds : ℚ) :
    total_frames fps seconds = max 2 (pyRound ((fps : ℚ) * seconds)) ∧
    (∀ n : ℤ, 1 < n →
      samples n = (List.range n.toNat).map (fun (i : ℕ) => (i : ℚ) / ((n : ℚ) - 1)) ∧
      (samples n).length = n.toNat ∧
      List.Pairwise (· < ·) (samples n)) ∧
    samples 1 = [1] := by
  refine ⟨rfl, ?_, by norm_num [samples]⟩
  intro n hn
  have hne : n ≠ 1 := by omega
  refine ⟨by simp [samples, hne], by simp [samples], ?_⟩
  have hpos : (0 : ℚ) < (n : ℚ) - 1 := by
    have h1 : (1 : ℚ) < (n : ℚ) := by exact_mod_cast hn
    linarith
  unfold samples
  rw [List.pairwise_map]
  refine List.Pairwise.imp ?_ (List.pairwise_lt_range n.toNat)
  intro a b hab
  simp only [if_neg hne]
  refine (div_lt_div_iff_of_pos_right hpos).mpr ?_
  exact_mod_cast hab

theorem c2_frame_sequencer_witness :
    samples 3 = (List.range (3 : ℤ).toNat).map
      (fun (i : ℕ) => (i : ℚ) / (((3 : ℤ) : ℚ) - 1)) ∧
    samples 1 = [1] :=
  ⟨((c2_frame_sequencer 30 2).2.1 3 (by norm_num)).1,
   (c2_frame_sequencer 30 2).2.2⟩

/-- Claim C9: for every `fps` and `seconds`, the total frame count is at
least 2, so the single-frame branch that would emit `t = 1.0` is
unreachable (every emitted sample comes from the `n > 1` branch), and every
run writes at least 2 frames. -/
theorem c9_at_least_two_frames (fps : ℤ) (seconds : ℚ) (imgA imgB : Img) :
    2 ≤ total_frames fps seconds ∧
    total_frames fps seconds ≠ 1 ∧
    samples (total_frames fps seconds) =
      (List.range (total_frames fps seconds).toNat).map
        (fun (i : ℕ) => (i : ℚ) / ((total_frames fps seconds : ℚ) - 1)) ∧
    2 ≤ (renderFrames imgA imgB fps seconds).length := by
  have h2 : 2 ≤ total_frames fps seconds := le_max_left _ _
  have hne : total_frames fps seconds ≠ 1 := by omega
  refine ⟨h2, hne, by simp [samples, hne], ?_⟩
  simp only [renderFrames, samples, List.length_map, List.length_range]
  omega

/-- Claim C3: at every `t` in `[0,1]`, each in-bounds pixel of a composed
frame is either part of the white border, opaque black, or blended interior
content (no uninitialized or transparent pixels), and every pixel on the
2-pixel-wide ring along the rectangle boundary is pure white regardless of
`t`, because the border is painted after the interior copy. -/
theorem c3_frame_pixels (imgA imgBs : Img) (w_out h_out : ℕ) (w43 : ℤ)
    (t : ℚ) (x y : ℕ) (ht0 : 0 ≤ t) (ht1 : t ≤ 1)
    (hx : x < w_out) (hy : y < h_out) :
    (onRing (x0c (w_out : ℤ) (rect_w (w_out : ℤ) w43 t))
        (x1c (w_out : ℤ) (rect_w (w_out : ℤ) w43 t)) 0 (h_out : ℤ)
        (x : ℤ) (y : ℤ) →
      (composeFrame imgA imgBs w_out h_out w43 t).pix y x = white) ∧
    ((composeFrame imgA imgBs w_out h_out w43 t).pix y x = white ∨
     (composeFrame imgA imgBs w_out h_out w43 t).pix y x = black ∨
     (composeFrame imgA imgBs w_out h_out w43 t).pix y x =
       (insideImage imgA imgBs h_out (rect_w (w_out : ℤ) w43 t) t).pix y
         ((x : ℤ) - x0c (w_out : ℤ) (rect_w (w_out : ℤ) w43 t)).toNat) := by
  constructor
  · intro hring
    simp only [composeFrame]
    rw [if_pos hring]
  · simp only [composeFrame]
    split_ifs <;> tauto

theorem c3_frame_pixels_witness :
    (composeFrame testImg testImg 2 2 2 (1 / 2)).pix 0 0 = white ∨
    (composeFrame testImg testImg 2 2 2 (1 / 2)).pix 0 0 = black ∨
    (composeFrame testImg testImg 2 2 2 (1 / 2)).pix 0 0 =
      (insideImage testImg testImg 2 (rect_w ((2 : ℕ) : ℤ) 2 (1 / 2)) (1 / 2)).pix 0
        (((0 : ℕ) : ℤ) - x0c ((2 : ℕ) : ℤ) (rect_w ((2 : ℕ) : ℤ) 2 (1 / 2))).toNat :=
  (c3_frame_pixels testImg testImg 2 2 2 (1 / 2) 0 0 (by norm_num) (by norm_num)
    (by norm_num) (by norm_num)).2

/-- Claim C7: the pipeline is a deterministic function of its inputs — two
runs with identical input images and identical fps/seconds parameters
produce identical frame sequences. -/
theorem c7_render_deterministic (a₁ a₂ b₁ b₂ : Img) (f₁ f₂ : ℤ) (s₁ s₂ : ℚ)
    (ha : a₁ = a₂) (hb : b₁ = b₂) (hf : f₁ = f₂) (hs : s₁ = s₂) :
    renderFrames a₁ b₁ f₁ s₁ = renderFrames a₂ b₂ f₂ s₂ := by
  subst ha hb hf hs
  rfl

theorem c7_render_deterministic_witness :
    renderFrames testImg testImg 30 2 = renderFrames testImg testImg 30 2 :=
  c7_render_deterministic testImg testImg testImg testImg 30 30 2 2
    rfl rfl rfl rfl

/-- Claim C4: on every exit path of a run, once the writer has been opened,
`writer.release()` is invoked exactly once (the trace contains exactly one
release event, occurring after the open event); when the writer was never
opened, no release occurs. -/
theorem c4_writer_released (e : RunInput) :
    (Ev.writerOpened ∈ (runTrace e).1 →
      ∃ l₁ l₂, (runTrace e).1 = l₁ ++ Ev.writerReleased :: l₂ ∧
        Ev.writerOpened ∈ l₁ ∧ Ev.writerReleased ∉ l₁ ∧
        Ev.writerReleased ∉ l₂) ∧
    (Ev.writerOpened ∉ (runTrace e).1 → Ev.writerReleased ∉ (runTrace e).1) := by
  obtain ⟨ia, ib, wOk, fps, secs, pa, pb, po⟩ := e
  cases ia with
  | none => simp [runTrace]
  | some a =>
    cases ib with
    | none => simp [runTrace]
    | some b =>
      cases wOk with
      | false => simp [runTrace]
      | true =>
        constructor
        · intro _
          refine ⟨Ev.writerOpened ::
              (List.range (total_frames fps secs).toNat).map Ev.frameWritten,
            [Ev.okPrinted ("[OK] Saved video: " ++ po)], ?_, ?_, ?_, ?_⟩
          · simp [runTrace]
          · simp
          · simp
          · simp
        · intro hno
          exfalso
          exact hno (by simp [runTrace])

/-- A fully successful run environment, used to instantiate theorems at a
concrete input. -/
def eOk : RunInput :=
  ⟨some testImg, some testImg, true, 30, 2, "a.png", "b.png", "out.mp4"⟩

/-- A run environment in which the first image fails to decode, used to
instantiate theorems at a concrete input. -/
def eFailA : RunInput :=
  ⟨none, none, true, 30, 2, "a.png", "b.png", "out.mp4"⟩

theorem c4_writer_released_witness :
    ∃ l₁ l₂, (runTrace eOk).1 = l₁ ++ Ev.writerReleased :: l₂ ∧
      Ev.writerOpened ∈ l₁ ∧ Ev.writerReleased ∉ l₁ ∧
      Ev.writerReleased ∉ l₂ :=
  (c4_writer_released eOk).1 (by simp [runTrace, eOk])

/-- Claim C8: a run exits with status 1 and an error message when either
image fails to decode, with status 2 and an error message when the video
writer cannot be opened — in each case the trace consists of that single
diagnostic, so the failure is surfaced immediately with no retry — and
exits with status 0 and the confirmation message on success. -/
theorem c8_exit_behavior (e : RunInput) :
    (e.imgA = none →
      runTrace e =
        ([Ev.errorPrinted ("[ERROR] Failed to read image A (16:9): " ++ e.pathA)], 1)) ∧
    (e.imgA ≠ none → e.imgB = none →
      runTrace e =
        ([Ev.errorPrinted ("[ERROR] Failed to read image B (4:3): " ++ e.pathB)], 1)) ∧
    (e.imgA ≠ none → e.imgB ≠ none → e.writerOk = false →
      runTrace e = ([Ev.errorPrinted "[ERROR] Could not open VideoWriter."], 2)) ∧
    (e.imgA ≠ none → e.imgB ≠ none → e.writerOk = true →
      (runTrace e).2 = 0 ∧
      Ev.okPrinted ("[OK] Saved video: " ++ e.outPath) ∈ (runTrace e).1) := by
  obtain ⟨ia, ib, wOk, fps, secs, pa, pb, po⟩ := e
  cases ia <;> cases ib <;> cases wOk <;> simp [runTrace]

theorem c8_exit_behavior_witness :
    runTrace eFailA =
      ([Ev.errorPrinted ("[ERROR] Failed to read image A (16:9): " ++ eFailA.pathA)], 1) ∧
    (runTrace eOk).2 = 0 ∧
    Ev.okPrinted ("[OK] Saved video: " ++ eOk.outPath) ∈ (runTrace eOk).1 :=
  ⟨(c8_exit_behavior eFailA).1 rfl,
   (c8_exit_behavior eOk).2.2.2 (by simp [eOk]) (by simp [eOk]) rfl⟩

end AMM
